import Mathlib

/-!
Verification of the deadrat bot framework (src/src/deadrat/__init__.py)
against its specification.

Modelling conventions:
* Python strings are modelled as `List Nat` of code points (`S` converts a
  Lean string literal).  Per-character lowercasing is modelled on the ASCII
  range, where it agrees with Python's `str.lower`.
* Timestamps (Python floats used only for ordering and one epsilon addition)
  are modelled as exact rationals `ℚ`.
* Exceptions are modelled with `Except Err` (`Err` abstracted as `String`);
  a Python function that may raise returns `Except Err α`.
* Network interactions are modelled by passing the observed transport
  outcomes (status codes, parsed bodies, raised exceptions) as explicit
  arguments; the dispatch loop consumes a finite script of such outcomes.
* Observable actions of the loop (fetches, cursor assignments, handler
  invocations, lifecycle-event firings, logs, sleeps, process exit) are
  recorded in a trace of `Ev` values.
-/

/-- Python whitespace test (`str.isspace` for the characters relevant to
`strip`/`split`): space, tab, newline, carriage return, vertical tab,
form feed. -/
def pyIsSpace (c : Nat) : Bool :=
  c == 32 || c == 9 || c == 10 || c == 13 || c == 11 || c == 12

/-- Python `str.strip()`: drop whitespace from both ends. -/
def pyStrip (s : List Nat) : List Nat :=
  ((s.dropWhile pyIsSpace).reverse.dropWhile pyIsSpace).reverse

/-- Helper for `split(" ", 1)`: the part before the first space character,
and (when a space exists) the remainder after that space. -/
def splitFirstSpace : List Nat → List Nat × Option (List Nat)
  | [] => ([], none)
  | c :: t =>
    if c == 32 then ([], some t)
    else
      let r := splitFirstSpace t
      (c :: r.1, r.2)

/-- Python `s.split(" ", 1)`: at most one split, on the first literal space
character; with no space present the result is `[s]` (also for `s = ""`). -/
def pySplitOnceSpace (s : List Nat) : List (List Nat) :=
  match splitFirstSpace s with
  | (a, none) => [a]
  | (a, some b) => [a, b]

/-- Lowercase one code point (ASCII range, where Python's `str.lower`
agrees). -/
def pyCharLower (c : Nat) : Nat :=
  if 65 ≤ c ∧ c ≤ 90 then c + 32 else c

/-- Python `str.lower()` (ASCII model). -/
def pyLower (s : List Nat) : List Nat := s.map pyCharLower

/-- Accumulator for `str.split()` with no separator: split on whitespace
runs, discarding empty pieces. -/
def wsSplitAux : List Nat → List Nat → List (List Nat)
  | [], acc => if acc.isEmpty then [] else [acc.reverse]
  | c :: t, acc =>
    if pyIsSpace c then
      if acc.isEmpty then wsSplitAux t [] else acc.reverse :: wsSplitAux t []
    else wsSplitAux t (c :: acc)

/-- Python `s.split()` (no separator argument). -/
def pySplitWs (s : List Nat) : List (List Nat) := wsSplitAux s []

/-- Code points of a Lean string literal, for concrete test inputs. -/
def S (s : String) : List Nat := s.toList.map Char.toNat

/-- An ASCII uppercase code point. -/
def isAsciiUpper (c : Nat) : Bool := 65 ≤ c && c ≤ 90

/-! ## Message model (`Message.__init__`) -/

/-- Exceptions, abstracted by their message. -/
abbrev Err := String

/-- Raw update payload fields the dispatch loop reads (`text`, `timestamp`).
A missing `text` key yields `""` via `data.get("text", "")`. -/
structure Payload where
  text : List Nat
  timestamp : ℚ
deriving DecidableEq, Repr

/-- The command/args computation of `Message.__init__`:
`parts = text.split(" ", 1)`; if `parts` is non-empty, `command` is
`parts[0].lower()` and, when a second part exists, `args` is
`parts[1].split()`.  `command` stays `None` only when `parts` is empty
(which never happens, see `pySplitOnceSpace_ne_nil`). -/
def parseCmdArgs (text : List Nat) : Option (List Nat) × List (List Nat) :=
  match pySplitOnceSpace text with
  | [] => (none, [])
  | p0 :: rest =>
    (some (pyLower p0),
      match rest with
      | [] => []
      | p1 :: _ => pySplitWs p1)

/-- A received message as built by `Message.__init__`: `text` is the
stripped payload text, `command`/`args` are parsed from it.  (The reply
chain and author fields are not needed by any claim.) -/
structure Msg where
  text : List Nat
  timestamp : ℚ
  command : Option (List Nat)
  args : List (List Nat)
deriving DecidableEq, Repr

/-- Constructor `Message(data, bot)` for the fields the loop uses. -/
def mkMessage (p : Payload) : Msg :=
  let t := pyStrip p.text
  let ca := parseCmdArgs t
  { text := t, timestamp := p.timestamp, command := ca.1, args := ca.2 }

/-! ## SentMessage (`SentMessage.edit`, `Bot.edit_message`) -/

/-- Outcome of one HTTP request: a response with a status code, or a
raised exception. -/
inductive NetResult where
  | resp (status : Nat)
  | exc (e : Err)
deriving DecidableEq, Repr

/-- A message handle as built by `SentMessage.__init__`. -/
structure SentMessage where
  id : Option (List Nat)
  timestamp : Option ℚ
  text : Option (List Nat)
deriving DecidableEq, Repr

/-- Method `Bot.edit_message(target, new_text)`: a falsy id (`None` or `""`)
returns `False` without a request; otherwise the result is `True` exactly
for a 200 response, and `False` on any other status or a raised
exception.  `net` is the outcome of the PUT request. -/
def edit_message (msgId : Option (List Nat)) (net : NetResult) : Bool :=
  match msgId with
  | none => false
  | some i =>
    if i.isEmpty then false
    else
      match net with
      | .resp s => s == 200
      | .exc _ => false

/-- Method `SentMessage.edit(new_text)`: on a successful underlying edit, update
the stored `text` and return `True`; otherwise return `False` leaving the
object unchanged. -/
def SentMessage.edit (sm : SentMessage) (newText : List Nat)
    (net : NetResult) : Bool × SentMessage :=
  if edit_message sm.id net then (true, { sm with text := some newText })
  else (false, sm)

/-! ## Lifecycle event registry (`Bot.event`, `Bot._trigger`) -/

/-- A received-message value or an exception, as passed to a lifecycle
handler via `_trigger(event_name, *args)`. -/
inductive EvArg where
  | err (e : Err)
  | msg (m : Msg)
deriving DecidableEq, Repr

/-- Behaviour of a registered lifecycle handler: given the `*args` it was
called with, it returns normally or raises. -/
abbrev EvBeh := List EvArg → Except Err Unit

/-- The `event_handlers` dict.  Its key set is fixed at construction to
exactly these four names and is never extended (`Bot.event` only assigns
to existing keys), so it is modelled as a structure of four slots. -/
structure EvSlots where
  startup : Option EvBeh
  shutdown : Option EvBeh
  connection_error : Option EvBeh
  error : Option EvBeh

/-- The fixed key set of `event_handlers`. -/
def eventNames : List String := ["startup", "shutdown", "connection_error", "error"]

/-- Lookup `event_handlers.get(event_name)`. -/
def slotOf (s : EvSlots) (name : String) : Option EvBeh :=
  if name = "startup" then s.startup
  else if name = "shutdown" then s.shutdown
  else if name = "connection_error" then s.connection_error
  else if name = "error" then s.error
  else none

/-- Assignment `event_handlers[event_name] = func` for one of the four fixed keys. -/
def setSlot (name : String) (f : EvBeh) (s : EvSlots) : EvSlots :=
  if name = "startup" then { s with startup := some f }
  else if name = "shutdown" then { s with shutdown := some f }
  else if name = "connection_error" then { s with connection_error := some f }
  else { s with error := some f }

/-- The decorator body of `Bot.event(event_name)`: if the name is a key of
`event_handlers`, store the handler there; otherwise log a warning and
change nothing.  The boolean records whether the warning was logged. -/
def registerEvent (name : String) (f : EvBeh) (s : EvSlots) : EvSlots × Bool :=
  if name ∈ eventNames then (setSlot name f s, false) else (s, true)

/-! ## Observable trace events of the dispatch loop -/

/-- One observable action of `Bot.run`. -/
inductive Ev where
  /-- Request `GET /updates?after_ts=after` was issued. -/
  | fetch (after : ℚ)
  /-- Assignment `self.last_ts = t` was executed. -/
  | cursorSet (t : ℚ)
  /-- A command handler (registered under the message's `command`) was
  called, with `(msg)` when `argsPassed = none`, with `(msg, msg.args)`
  when `argsPassed = some msg.args`. -/
  | cmdInvoked (trigger : List Nat) (m : Msg) (argsPassed : Option (List (List Nat)))
  /-- The catch-all handler at registration position `idx` was called
  with `(msg)`. -/
  | catchAllInvoked (idx : Nat) (m : Msg)
  /-- Call of `self._trigger(name, *args)`. -/
  | fired (name : String) (args : List EvArg)
  /-- Inside `_trigger`, it caught and logged an exception raised by the handler. -/
  | handlerErrLogged (name : String) (e : Err)
  /-- The per-command `logger.error` for a failed command handler. -/
  | cmdErrLogged (trigger : List Nat) (e : Err)
  /-- Log `logger.error` + backoff in the generic `except Exception` arm. -/
  | loopErrLogged (e : Err)
  /-- Log `logger.warning` for a non-200, non-403 poll status. -/
  | statusWarned (status : Nat)
  /-- Log `logger.critical` for the invalid-API-key path. -/
  | authLogged
  /-- Log `logger.error("Connection lost.")`. -/
  | connLostLogged
  /-- Sleep `time.sleep(n)`. -/
  | slept (n : Nat)
  /-- Exit `sys.exit(code)`. -/
  | sysExit (code : Nat)
deriving DecidableEq, Repr

/-- Method `Bot._trigger(event_name, *args)` in the exception monad: look the
handler up; a raised exception is caught and logged inside `_trigger` and
is never re-raised (the `.error` branch of the match is the `except`
clause of the source). -/
def triggerExc (s : EvSlots) (name : String) (args : List EvArg) :
    Except Err (List Ev) :=
  match slotOf s name with
  | none => .ok []
  | some h =>
    match h args with
    | .ok _ => .ok []
    | .error e => .ok [.handlerErrLogged name e]

/-- Total unwrapping of `triggerExc` (justified by `C9_trigger_swallows`:
the `.error` case is unreachable). -/
def triggerEvs (s : EvSlots) (name : String) (args : List EvArg) : List Ev :=
  match triggerExc s name args with
  | .ok l => l
  | .error e => [.loopErrLogged e]

/-- A call `self._trigger(name, *args)` together with what it logged. -/
def fireEvent (s : EvSlots) (name : String) (args : List EvArg) : List Ev :=
  .fired name args :: triggerEvs s name args

/-! ## The Bot's handler state and the dispatch of one message -/

/-- Behaviour of a command or catch-all handler on the message it is
given (a command handler additionally receives `msg.args` when its
declared arity asks for them, but `msg.args` is a function of the
message, so the behaviour is determined by the message). -/
abbrev HBeh := Msg → Except Err Unit

/-- The handler state of a `Bot` instance: `command_handlers` (a dict, modelled as
an association list with distinct keys looked up by exact match),
`message_handlers` (ordered list of catch-alls), and the lifecycle
slots. -/
structure BotState where
  command_handlers : List (List Nat × HBeh × Bool)
  message_handlers : List HBeh
  event_handlers : EvSlots

/-- Association-list lookup, i.e. `dict.get` for `command_handlers`. -/
def assocGet (hs : List (List Nat × HBeh × Bool)) (k : List Nat) :
    Option (HBeh × Bool) :=
  match hs with
  | [] => none
  | (k', v) :: t => if k' = k then some v else assocGet t k

/-- Lookup `self.command_handlers.get(msg.command)`; `msg.command` is never a
dict key when it is `None`. -/
def lookupCmd (hs : List (List Nat × HBeh × Bool)) :
    Option (List Nat) → Option (HBeh × Bool)
  | none => none
  | some k => assocGet hs k

/-- The `for handler in self.message_handlers: handler(msg)` loop, with
`idx` the registration position of the first handler of `hs`.  A raised
exception propagates (there is no try/except around this loop in the
source), carrying the events emitted so far. -/
def runCatchAlls (hs : List HBeh) (idx : Nat) (m : Msg) :
    List Ev × Option Err :=
  match hs with
  | [] => ([], none)
  | h :: t =>
    match h m with
    | .ok _ =>
      let r := runCatchAlls t (idx + 1) m
      (.catchAllInvoked idx m :: r.1, r.2)
    | .error e => ([.catchAllInvoked idx m], some e)

/-- The per-message body of the polling loop, after the cursor update:
look up the command; if found, call the handler (per its `wants_args`
flag) inside try/except — an exception is logged and forwarded to the
`error` lifecycle event with `(e, msg)`, and never propagates — and skip
the catch-alls (`cmd_triggered`); if not found, run every catch-all, whose
exceptions propagate. -/
def dispatchMsg (bot : BotState) (m : Msg) : List Ev × Option Err :=
  match lookupCmd bot.command_handlers m.command with
  | some fv =>
    let callEv : Ev :=
      .cmdInvoked (m.command.getD []) m (if fv.2 then some m.args else none)
    match fv.1 m with
    | .ok _ => ([callEv], none)
    | .error e =>
      (callEv :: .cmdErrLogged (m.command.getD []) e ::
        fireEvent bot.event_handlers "error" [.err e, .msg m], none)
  | none => runCatchAlls bot.message_handlers 0 m

/-- Loop `for msg_data in messages: ...` — advance the cursor to the payload's
timestamp, build the `Message`, dispatch it; a propagating exception (from
a catch-all handler) aborts the rest of the batch. -/
def processBatch (bot : BotState) (cursor : ℚ) :
    List Payload → ℚ × List Ev × Option Err
  | [] => (cursor, [], none)
  | p :: rest =>
    let m := mkMessage p
    let d := dispatchMsg bot m
    match d.2 with
    | some e => (p.timestamp, .cursorSet p.timestamp :: d.1, some e)
    | none =>
      let r := processBatch bot p.timestamp rest
      (r.1, .cursorSet p.timestamp :: d.1 ++ r.2.1, r.2.2)

/-! ## The polling loop (`Bot.run`) -/

/-- Observed outcome of one `GET /updates` long-poll request: a 200
response with its parsed body, a 403, another status, a read timeout, a
connection error, or any other raised exception (which the generic
`except Exception` arm catches — this also covers a body that fails to
parse). -/
inductive PollResult where
  | ok (msgs : List Payload)
  | status403
  | statusOther (status : Nat)
  | readTimeout
  | connectionError
  | exc (e : Err)
deriving Repr

/-- One iteration of the `while True` body given the poll's outcome.
The boolean is `true` when the iteration executes `break` (auth
failure). -/
def pollIteration (bot : BotState) (cursor : ℚ) :
    PollResult → ℚ × List Ev × Bool
  | .ok msgs =>
    let r := processBatch bot cursor msgs
    match r.2.2 with
    | none => (r.1, .fetch cursor :: r.2.1, false)
    | some e =>
      (r.1,
        .fetch cursor :: r.2.1 ++
          (Ev.loopErrLogged e :: fireEvent bot.event_handlers "error" [.err e]) ++
          [.slept 1],
        false)
  | .status403 => (cursor, [.fetch cursor, .authLogged], true)
  | .statusOther s => (cursor, [.fetch cursor, .statusWarned s, .slept 2], false)
  | .readTimeout => (cursor, [.fetch cursor], false)
  | .connectionError =>
    (cursor,
      .fetch cursor :: .connLostLogged ::
        fireEvent bot.event_handlers "connection_error" [] ++ [.slept 5],
      false)
  | .exc e =>
    (cursor,
      .fetch cursor :: .loopErrLogged e ::
        fireEvent bot.event_handlers "error" [.err e] ++ [.slept 1],
      false)

/-- One element of the environment's script: the outcome the next poll
would observe, or a `KeyboardInterrupt` delivered at the iteration
boundary (cancellation is cooperative, §5 of the spec). -/
inductive ScriptItem where
  | poll (r : PollResult)
  | interrupt
deriving Repr

/-- How a finite run of the listening loop ended. -/
inductive RunEnd where
  /-- Branch `break` on 403: `run` returns normally, firing nothing. -/
  | authFailed
  /-- Exception `KeyboardInterrupt` caught: `shutdown` is fired, then `sys.exit(0)`. -/
  | interrupted
  /-- The finite script was exhausted with the loop still running. -/
  | scriptEnded
deriving DecidableEq, Repr

/-- The `while True` loop of `Bot.run` over a finite script of observed
transport outcomes. -/
def runLoop (bot : BotState) (cursor : ℚ) :
    List ScriptItem → ℚ × List Ev × RunEnd
  | [] => (cursor, [], .scriptEnded)
  | .interrupt :: _ =>
    (cursor, fireEvent bot.event_handlers "shutdown" [] ++ [.sysExit 0],
      .interrupted)
  | .poll r :: rest =>
    let it := pollIteration bot cursor r
    if it.2.2 then (it.1, it.2.1, .authFailed)
    else
      let k := runLoop bot it.1 rest
      (k.1, it.2.1 ++ k.2.1, k.2.2)

/-! ## Initial sync and the whole of `Bot.run` -/

/-- Observed outcome of the one sync request (`after_ts = 0`,
`timeout = 5`): a response with status and parsed body, or a raised
exception (timeouts and connection errors included). -/
inductive SyncResp where
  | resp (status : Nat) (msgs : List Payload)
  | exc (e : Err)
deriving Repr

/-- The cursor value set by the sync block of `Bot.run`: on 200 with a
non-empty body, the last item's timestamp plus `0.000001`; otherwise
(empty body, other status, or exception) the current wall-clock time
`now`. -/
def initialSync (now : ℚ) : SyncResp → ℚ
  | .resp status msgs =>
    if status == 200 then
      match msgs.getLast? with
      | some p => p.timestamp + 1 / 1000000
      | none => now
    else now
  | .exc _ => now

/-- Method `Bot.run` in full: one sync fetch with `after_ts = 0`, the cursor
assignment it decides, the `startup` firing, then the listening loop. -/
def botRun (bot : BotState) (now : ℚ) (sync : SyncResp)
    (script : List ScriptItem) : ℚ × List Ev × RunEnd :=
  let c0 := initialSync now sync
  let k := runLoop bot c0 script
  (k.1,
    .fetch 0 :: .cursorSet c0 :: fireEvent bot.event_handlers "startup" [] ++ k.2.1,
    k.2.2)

/-! ## Trace helpers -/

/-- The values assigned to `last_ts`, in order, within a trace. -/
def cursorValues : List Ev → List ℚ
  | [] => []
  | .cursorSet t :: rest => t :: cursorValues rest
  | _ :: rest => cursorValues rest

/-- How many times `_trigger("shutdown")` was called in a trace. -/
def shutdownCount : List Ev → Nat
  | [] => 0
  | .fired n _ :: rest => (if n = "shutdown" then 1 else 0) + shutdownCount rest
  | _ :: rest => shutdownCount rest

/-- Modelled from the spec for refinement comparison (spec section 4.2):
split the trimmed text on the first whitespace RUN into at most two
parts; part one lowercased is the command; the second part, when present,
is split on whitespace into the args; empty text gives command `""` and
no args. -/
def specParseCmdArgs (text : List Nat) : List Nat × List (List Nat) :=
  let t := pyStrip text
  let p0 := t.takeWhile (fun c => !pyIsSpace c)
  let rest := (t.dropWhile (fun c => !pyIsSpace c)).dropWhile pyIsSpace
  (pyLower p0, pySplitWs rest)

/-! ## Concrete fixtures for witnesses and counterexamples -/

/-- A message handler that returns normally. -/
def okBeh : HBeh := fun _ => .ok ()

/-- A message handler that raises. -/
def raiseBeh : HBeh := fun _ => .error "boom"

/-- A lifecycle handler that returns normally. -/
def okEvBeh : EvBeh := fun _ => .ok ()

/-- A lifecycle handler that raises. -/
def raiseEvBeh : EvBeh := fun _ => .error "evboom"

/-- Empty lifecycle slots. -/
def noSlots : EvSlots := ⟨none, none, none, none⟩

/-- Lifecycle slots with a benign `error` handler. -/
def errSlots : EvSlots := ⟨none, none, none, some okEvBeh⟩

/-- A bot with no command handlers and two catch-alls, the first of
which raises. -/
def cbBot : BotState := ⟨[], [raiseBeh, okBeh], errSlots⟩

/-- A bot whose only command handler (for `"/cmd"`, wanting args)
raises, with one catch-all. -/
def cmdBot : BotState := ⟨[(S "/cmd", raiseBeh, true)], [okBeh], errSlots⟩

/-! ## Cursor monotonicity machinery (C3) -/

/-- The precondition of C3 for one successful fetch made at cursor `c`:
payloads come in ascending timestamp order, all strictly above `c`. -/
def batchOK (c : ℚ) (msgs : List Payload) : Prop :=
  List.Pairwise (· < ·) (msgs.map Payload.timestamp) ∧
    ∀ p ∈ msgs, c < p.timestamp

/-- The precondition of C3 along a whole script: every `ok` poll result
satisfies `batchOK` at the cursor the loop holds when that poll is
made. -/
def ValidFrom (bot : BotState) (c : ℚ) : List ScriptItem → Prop
  | [] => True
  | .interrupt :: _ => True
  | .poll r :: rest =>
    (match r with
     | .ok msgs => batchOK c msgs
     | _ => True) ∧
    ValidFrom bot (pollIteration bot c r).1 rest

/-! ## Theorems -/

/-! ## Parsing characterization -/

/-- Characterization of `splitFirstSpace`: the first component is
everything before the first space character, the second is the remainder
after that space when one exists. -/
theorem splitFirstSpace_eq (s : List Nat) :
    splitFirstSpace s =
      (s.takeWhile (fun c => c != 32),
        if 32 ∈ s then some ((s.dropWhile (fun c => c != 32)).tail) else none) := by
  induction s with
  | nil => simp [splitFirstSpace]
  | cons c t ih =>
    by_cases h : c = 32
    · subst h
      simp [splitFirstSpace]
    · have h' : ¬(32 = c) := fun hh => h hh.symm
      simp [splitFirstSpace, h, h', ih]

/-- Characterization of `parseCmdArgs`: the command is the lowercased
text before the first space; the args are the whitespace-split of what
follows it (empty when there is no space). -/
theorem parseCmdArgs_eq (t : List Nat) :
    parseCmdArgs t =
      (some (pyLower (t.takeWhile (fun c => c != 32))),
        if 32 ∈ t then pySplitWs ((t.dropWhile (fun c => c != 32)).tail)
        else []) := by
  unfold parseCmdArgs pySplitOnceSpace
  rw [splitFirstSpace_eq]
  by_cases h : 32 ∈ t <;> simp [h]

/-- The `command` field of a constructed message. -/
theorem mkMessage_command (p : Payload) :
    (mkMessage p).command =
      some (pyLower ((pyStrip p.text).takeWhile (fun c => c != 32))) := by
  simp [mkMessage, parseCmdArgs_eq]

/-- The `args` field of a constructed message. -/
theorem mkMessage_args (p : Payload) :
    (mkMessage p).args =
      (if 32 ∈ pyStrip p.text then
        pySplitWs (((pyStrip p.text).dropWhile (fun c => c != 32)).tail)
      else []) := by
  simp [mkMessage, parseCmdArgs_eq]

/-- C2 counterexample: on the text `"/cmd<TAB>a"` the spec's rule (split
on the first whitespace run) yields command `"/cmd"` with one arg, but
`Message.__init__` splits on the first space character only, so the
parsed command keeps the tab and the following word, and the args are
empty — the claim's universally-quantified parsing rule is false at this
payload. -/
theorem C2_counterexample :
    specParseCmdArgs (S "/cmd\ta") = (S "/cmd", [S "a"]) ∧
    (mkMessage ⟨S "/cmd\ta", 0⟩).command = some (S "/cmd\ta") ∧
    (mkMessage ⟨S "/cmd\ta", 0⟩).args = [] ∧
    (mkMessage ⟨S "/cmd\ta", 0⟩).command ≠ some (specParseCmdArgs (S "/cmd\ta")).1 := by
  decide

/-- C2 (amended): parsing splits the trimmed text on the first SPACE
CHARACTER (not on the first whitespace run) into at most two parts, sets
`command` to the lowercased first part, sets `args` to the second part
split on whitespace runs (empty when there is no space), and for empty
text yields command `""` and args `[]`; the text `"/cmd a b"` yields
command `"/cmd"` and args `["a", "b"]`. -/
theorem C2_parsing_rule :
    (∀ p : Payload,
      (mkMessage p).command =
        some (pyLower ((pyStrip p.text).takeWhile (fun c => c != 32))) ∧
      (mkMessage p).args =
        (if 32 ∈ pyStrip p.text then
          pySplitWs (((pyStrip p.text).dropWhile (fun c => c != 32)).tail)
        else [])) ∧
    (mkMessage ⟨S "/cmd a b", 0⟩).command = some (S "/cmd") ∧
    (mkMessage ⟨S "/cmd a b", 0⟩).args = [S "a", S "b"] ∧
    (mkMessage ⟨S "", 0⟩).command = some (S "") ∧
    (mkMessage ⟨S "", 0⟩).args = [] := by
  refine ⟨fun p => ⟨mkMessage_command p, mkMessage_args p⟩, ?_, ?_, ?_, ?_⟩ <;> decide

/-! ## C8: SentMessage.edit -/

/-- C8: `edit(new_text)` returns `True` and updates the stored `text`
field to `new_text` exactly when the underlying `Bot.edit_message`
succeeds; when it fails, `edit` returns `False` and the object — its
`text` field included — is unchanged. -/
theorem C8_edit_updates_text :
    ∀ (sm : SentMessage) (t : List Nat) (net : NetResult),
      ((sm.edit t net).1 = true ↔ edit_message sm.id net = true) ∧
      (edit_message sm.id net = true →
        (sm.edit t net).2 = { sm with text := some t }) ∧
      (edit_message sm.id net = false → (sm.edit t net).2 = sm) := by
  intro sm t net
  unfold SentMessage.edit
  cases h : edit_message sm.id net <;> simp [h]

/-- C8 witness: a successful edit (id present, 200 response) stores the
new text. -/
theorem C8_edit_witness :
    ((⟨some (S "1"), some 5, some (S "old")⟩ : SentMessage).edit (S "new")
        (.resp 200)).2 =
      { (⟨some (S "1"), some 5, some (S "old")⟩ : SentMessage) with
          text := some (S "new") } :=
  (C8_edit_updates_text ⟨some (S "1"), some 5, some (S "old")⟩ (S "new")
    (.resp 200)).2.1 (by decide)

/-! ## C6: lifecycle registration -/

/-- C6: registering a lifecycle handler under a name outside
`{startup, shutdown, connection_error, error}` leaves every slot
unchanged and only logs a warning (the boolean), while registering under
one of the four fixed names stores the handler in exactly that slot and
leaves the other slots unchanged. -/
theorem C6_event_registration :
    ∀ (s : EvSlots) (name : String) (f : EvBeh),
      (name ∉ eventNames → registerEvent name f s = (s, true)) ∧
      registerEvent "startup" f s = ({ s with startup := some f }, false) ∧
      registerEvent "shutdown" f s = ({ s with shutdown := some f }, false) ∧
      registerEvent "connection_error" f s =
        ({ s with connection_error := some f }, false) ∧
      registerEvent "error" f s = ({ s with error := some f }, false) := by
  intro s name f
  refine ⟨fun h => by simp [registerEvent, h], ?_, ?_, ?_, ?_⟩ <;>
    simp [registerEvent, setSlot, eventNames]

/-- C6 witness: registering under the unknown name `"unknown"` leaves
empty slots empty and warns. -/
theorem C6_event_registration_witness :
    registerEvent "unknown" okEvBeh noSlots = (noSlots, true) :=
  (C6_event_registration noSlots "unknown" okEvBeh).1 (by decide)

/-! ## C9: _trigger swallows handler exceptions -/

/-- C9: for every lifecycle event name (the four real ones included —
`error` and `shutdown` as much as `startup` and `connection_error`) and
every registered handler, an exception the handler raises is caught and
logged inside `_trigger` and never propagates: `triggerExc` always
returns `.ok`, and a raising handler yields exactly the internal error
log. -/
theorem C9_trigger_never_propagates :
    ∀ (s : EvSlots) (name : String) (args : List EvArg),
      (∃ l, triggerExc s name args = Except.ok l) ∧
      (∀ h e, slotOf s name = some h → h args = Except.error e →
        triggerExc s name args = Except.ok [Ev.handlerErrLogged name e]) := by
  intro s name args
  constructor
  · unfold triggerExc
    cases hs : slotOf s name with
    | none => exact ⟨[], rfl⟩
    | some h =>
      cases hh : h args with
      | ok u => exact ⟨[], by simp [hh]⟩
      | error e => exact ⟨[.handlerErrLogged name e], by simp [hh]⟩
  · intro h e hs hh
    unfold triggerExc
    rw [hs]
    simp [hh]

/-- C9 witness: a raising `shutdown` handler is swallowed and logged. -/
theorem C9_trigger_witness :
    triggerExc ⟨none, some raiseEvBeh, none, none⟩ "shutdown" [] =
      Except.ok [Ev.handlerErrLogged "shutdown" "evboom"] :=
  (C9_trigger_never_propagates ⟨none, some raiseEvBeh, none, none⟩
    "shutdown" []).2 raiseEvBeh "evboom" rfl rfl

/-! ## Shape lemmas about the events each piece of the loop can emit -/

/-- Events a `_trigger` call logs internally: none, or one swallowed
handler error. -/
theorem triggerEvs_cases (s : EvSlots) (name : String) (args : List EvArg) :
    triggerEvs s name args = [] ∨
      ∃ e, triggerEvs s name args = [Ev.handlerErrLogged name e] := by
  unfold triggerEvs triggerExc
  cases hs : slotOf s name with
  | none => exact Or.inl rfl
  | some h =>
    cases hh : h args with
    | ok u => exact Or.inl (by simp [hh])
    | error e => exact Or.inr ⟨e, by simp [hh]⟩

/-- Events of one `_trigger` call: the firing itself, possibly followed
by a swallowed handler error. -/
theorem fireEvent_mem (s : EvSlots) (name : String) (args : List EvArg)
    (e : Ev) (h : e ∈ fireEvent s name args) :
    e = Ev.fired name args ∨ ∃ ee, e = Ev.handlerErrLogged name ee := by
  unfold fireEvent at h
  rcases List.mem_cons.mp h with h1 | h2
  · exact Or.inl h1
  · rcases triggerEvs_cases s name args with hc | ⟨ee, hc⟩ <;> rw [hc] at h2
    · cases h2
    · rcases List.mem_singleton.mp h2 with rfl
      exact Or.inr ⟨ee, rfl⟩

/-- Events of the catch-all loop: only catch-all invocations of the
message at hand. -/
theorem runCatchAlls_mem :
    ∀ (hs : List HBeh) (i : Nat) (m : Msg) (e : Ev),
      e ∈ (runCatchAlls hs i m).1 → ∃ j, e = Ev.catchAllInvoked j m := by
  intro hs
  induction hs with
  | nil => intro i m e h; cases h
  | cons hd tl ih =>
    intro i m e h
    unfold runCatchAlls at h
    cases hh : hd m with
    | ok u =>
      simp only [hh] at h
      rcases List.mem_cons.mp h with h1 | h2
      · exact ⟨i, h1⟩
      · exact ih (i + 1) m e h2
    | error err =>
      simp only [hh] at h
      rcases List.mem_singleton.mp h with rfl
      exact ⟨i, rfl⟩

/-- Events of dispatching one message. -/
theorem dispatchMsg_mem (bot : BotState) (m : Msg) (e : Ev)
    (h : e ∈ (dispatchMsg bot m).1) :
    (∃ a, e = Ev.cmdInvoked (m.command.getD []) m a) ∨
    (∃ ee, e = Ev.cmdErrLogged (m.command.getD []) ee) ∨
    (∃ ee, e = Ev.fired "error" [.err ee, .msg m]) ∨
    (∃ ee, e = Ev.handlerErrLogged "error" ee) ∨
    (∃ j, e = Ev.catchAllInvoked j m) := by
  unfold dispatchMsg at h
  cases hl : lookupCmd bot.command_handlers m.command with
  | none =>
    rw [hl] at h
    exact Or.inr (Or.inr (Or.inr (Or.inr (runCatchAlls_mem _ 0 m e h))))
  | some fv =>
    rw [hl] at h
    cases hv : fv.1 m with
    | ok u =>
      simp only [hv] at h
      rcases List.mem_singleton.mp h with rfl
      exact Or.inl ⟨_, rfl⟩
    | error err =>
      simp only [hv] at h
      rcases List.mem_cons.mp h with h1 | h2
      · exact Or.inl ⟨_, h1⟩
      rcases List.mem_cons.mp h2 with h3 | h4
      · exact Or.inr (Or.inl ⟨err, h3⟩)
      rcases fireEvent_mem _ _ _ _ h4 with h5 | ⟨ee, h5⟩
      · exact Or.inr (Or.inr (Or.inl ⟨err, h5⟩))
      · exact Or.inr (Or.inr (Or.inr (Or.inl ⟨ee, h5⟩)))

/-! ## Arithmetic of the trace projections -/

/-- Cursor assignments of a concatenated trace. -/
theorem cursorValues_append (a b : List Ev) :
    cursorValues (a ++ b) = cursorValues a ++ cursorValues b := by
  induction a with
  | nil => rfl
  | cons e rest ih => cases e <;> simp [cursorValues, ih]

/-- A trace without `cursorSet` events has no cursor assignments. -/
theorem cursorValues_eq_nil (evs : List Ev)
    (h : ∀ e ∈ evs, ∀ t, e ≠ Ev.cursorSet t) : cursorValues evs = [] := by
  induction evs with
  | nil => rfl
  | cons e rest ih =>
    cases e with
    | cursorSet t => exact absurd rfl (h _ (List.mem_cons_self _ _) t)
    | _ =>
      simp only [cursorValues]
      exact ih fun e he t => h e (List.mem_cons_of_mem _ he) t

/-- Shutdown firings of a concatenated trace. -/
theorem shutdownCount_append (a b : List Ev) :
    shutdownCount (a ++ b) = shutdownCount a + shutdownCount b := by
  induction a with
  | nil => simp [shutdownCount]
  | cons e rest ih =>
    cases e <;> simp [shutdownCount, ih]
    omega

/-- A trace without `fired "shutdown"` events has shutdown count zero. -/
theorem shutdownCount_eq_zero (evs : List Ev)
    (h : ∀ e ∈ evs, ∀ a, e ≠ Ev.fired "shutdown" a) : shutdownCount evs = 0 := by
  induction evs with
  | nil => rfl
  | cons e rest ih =>
    have tl : shutdownCount rest = 0 :=
      ih fun e he a => h e (List.mem_cons_of_mem _ he) a
    cases e with
    | fired n args =>
      have hn : ¬n = "shutdown" := fun hn => by
        exact absurd rfl (hn ▸ h _ (List.mem_cons_self _ _) args)
      simp [shutdownCount, hn, tl]
    | _ => simpa [shutdownCount] using tl

/-- The dispatch of one message never assigns the cursor and never fires
`shutdown`. -/
theorem dispatchMsg_no_cursor_no_shutdown (bot : BotState) (m : Msg) :
    cursorValues (dispatchMsg bot m).1 = [] ∧
      shutdownCount (dispatchMsg bot m).1 = 0 := by
  constructor
  · refine cursorValues_eq_nil _ fun e he t => ?_
    rcases dispatchMsg_mem bot m e he with ⟨a, rfl⟩ | ⟨ee, rfl⟩ | ⟨ee, rfl⟩ |
      ⟨ee, rfl⟩ | ⟨j, rfl⟩ <;> simp
  · refine shutdownCount_eq_zero _ fun e he a => ?_
    rcases dispatchMsg_mem bot m e he with ⟨a', rfl⟩ | ⟨ee, rfl⟩ | ⟨ee, rfl⟩ |
      ⟨ee, rfl⟩ | ⟨j, rfl⟩ <;> simp

/-- The internal logs of a `_trigger` call fire nothing. -/
theorem shutdownCount_triggerEvs (s : EvSlots) (name : String)
    (args : List EvArg) : shutdownCount (triggerEvs s name args) = 0 := by
  rcases triggerEvs_cases s name args with h | ⟨e, h⟩ <;> rw [h] <;> rfl

/-- The internal logs of a `_trigger` call assign no cursor. -/
theorem cursorValues_triggerEvs (s : EvSlots) (name : String)
    (args : List EvArg) : cursorValues (triggerEvs s name args) = [] := by
  rcases triggerEvs_cases s name args with h | ⟨e, h⟩ <;> rw [h] <;> rfl

/-- A `_trigger` call fires `shutdown` only when it is the shutdown
trigger itself. -/
theorem shutdownCount_fireEvent (s : EvSlots) (name : String)
    (args : List EvArg) :
    shutdownCount (fireEvent s name args) =
      if name = "shutdown" then 1 else 0 := by
  have ht : shutdownCount (triggerEvs s name args) = 0 := by
    rcases triggerEvs_cases s name args with h | ⟨e, h⟩ <;> rw [h] <;> rfl
  unfold fireEvent
  simp [shutdownCount, ht]

/-- A `_trigger` call assigns no cursor. -/
theorem cursorValues_fireEvent (s : EvSlots) (name : String)
    (args : List EvArg) : cursorValues (fireEvent s name args) = [] := by
  have ht : cursorValues (triggerEvs s name args) = [] := by
    rcases triggerEvs_cases s name args with h | ⟨e, h⟩ <;> rw [h] <;> rfl
  unfold fireEvent
  simp [cursorValues, ht]

/-- Batch processing never fires `shutdown`. -/
theorem shutdownCount_processBatch (bot : BotState) (msgs : List Payload) :
    ∀ c, shutdownCount (processBatch bot c msgs).2.1 = 0 := by
  induction msgs with
  | nil => intro c; rfl
  | cons p rest ih =>
    intro c
    unfold processBatch
    cases hd : (dispatchMsg bot (mkMessage p)).2 with
    | some e =>
      simp only [hd]
      simpa [shutdownCount] using (dispatchMsg_no_cursor_no_shutdown bot (mkMessage p)).2
    | none =>
      simp only [hd]
      simp [shutdownCount, shutdownCount_append,
        (dispatchMsg_no_cursor_no_shutdown bot (mkMessage p)).2, ih p.timestamp]

/-- The cursor values assigned while processing a batch, bracketed by the
entry cursor and the exit cursor, form a non-decreasing chain, provided
the batch is ascending and above the entry cursor. -/
theorem processBatch_chain (bot : BotState) (msgs : List Payload) :
    ∀ c, batchOK c msgs →
      List.Chain' (· ≤ ·)
        (c :: cursorValues (processBatch bot c msgs).2.1 ++
          [(processBatch bot c msgs).1]) := by
  induction msgs with
  | nil => intro c _; simp [processBatch, cursorValues]
  | cons p rest ih =>
    intro c hok
    obtain ⟨hpair, habove⟩ := hok
    have hcp : c ≤ p.timestamp := le_of_lt (habove p (List.mem_cons_self _ _))
    have hrest : batchOK p.timestamp rest := by
      constructor
      · exact (List.pairwise_cons.mp (by simpa using hpair)).2
      · intro q hq
        have := (List.pairwise_cons.mp (by simpa using hpair)).1 q.timestamp
          (List.mem_map_of_mem Payload.timestamp hq)
        exact this
    have hcv := (dispatchMsg_no_cursor_no_shutdown bot (mkMessage p)).1
    unfold processBatch
    cases hd : (dispatchMsg bot (mkMessage p)).2 with
    | some e =>
      simp only [hd]
      simp [cursorValues, hcv, List.chain'_cons, hcp]
    | none =>
      have hih := ih p.timestamp hrest
      have hchain := List.Chain'.cons hcp hih
      simp only [hd]
      simpa [cursorValues, cursorValues_append, hcv] using hchain

/-- With no propagated exception, the exit cursor of a batch is the
timestamp of its last payload. -/
theorem processBatch_final (bot : BotState) (msgs : List Payload) :
    ∀ c, (processBatch bot c msgs).2.2 = none →
      (processBatch bot c msgs).1 = (msgs.map Payload.timestamp).getLastD c := by
  induction msgs with
  | nil => intro c _; rfl
  | cons p rest ih =>
    intro c hnone
    unfold processBatch at hnone ⊢
    cases hd : (dispatchMsg bot (mkMessage p)).2 with
    | some e => simp [hd] at hnone
    | none =>
      simp only [hd] at hnone ⊢
      rw [List.map_cons, List.getLastD_cons]
      exact ih p.timestamp hnone

/-- One poll iteration never fires `shutdown` (handler errors go to
`error`, connection failures to `connection_error`). -/
theorem shutdownCount_pollIteration (bot : BotState) (c : ℚ) (r : PollResult) :
    shutdownCount (pollIteration bot c r).2.1 = 0 := by
  cases r with
  | ok msgs =>
    unfold pollIteration
    cases hx : (processBatch bot c msgs).2.2 with
    | none =>
      simp [hx, shutdownCount, shutdownCount_processBatch]
    | some e =>
      simp [hx, shutdownCount, shutdownCount_append,
        shutdownCount_processBatch, shutdownCount_fireEvent,
        shutdownCount_triggerEvs]
  | status403 => rfl
  | statusOther s => rfl
  | readTimeout => rfl
  | connectionError =>
    simp [pollIteration, shutdownCount, shutdownCount_append,
      shutdownCount_fireEvent, shutdownCount_triggerEvs]
  | exc e =>
    simp [pollIteration, shutdownCount, shutdownCount_append,
      shutdownCount_fireEvent, shutdownCount_triggerEvs]

/-- Cursor values of one poll iteration chain between the entry and exit
cursors, given the C3 precondition for a successful fetch. -/
theorem pollIteration_chain (bot : BotState) (c : ℚ) (r : PollResult)
    (hok : ∀ msgs, r = PollResult.ok msgs → batchOK c msgs) :
    List.Chain' (· ≤ ·)
      (c :: cursorValues (pollIteration bot c r).2.1 ++
        [(pollIteration bot c r).1]) := by
  cases r with
  | ok msgs =>
    have hchain := processBatch_chain bot msgs c (hok msgs rfl)
    unfold pollIteration
    cases hx : (processBatch bot c msgs).2.2 with
    | none => simpa [hx, cursorValues] using hchain
    | some e =>
      simpa [hx, cursorValues, cursorValues_append, cursorValues_fireEvent,
        cursorValues_triggerEvs] using hchain
  | status403 => simp [pollIteration, cursorValues]
  | statusOther s => simp [pollIteration, cursorValues]
  | readTimeout => simp [pollIteration, cursorValues]
  | connectionError =>
    simp [pollIteration, cursorValues, cursorValues_append,
      cursorValues_fireEvent, cursorValues_triggerEvs]
  | exc e =>
    simp [pollIteration, cursorValues, cursorValues_append,
      cursorValues_fireEvent, cursorValues_triggerEvs]

/-- Two bracketed non-decreasing chains glue at their shared bracket. -/
theorem chain_glue {A B : List ℚ} {m : ℚ}
    (h1 : List.Chain' (· ≤ ·) (A ++ [m]))
    (h2 : List.Chain' (· ≤ ·) (m :: B)) :
    List.Chain' (· ≤ ·) (A ++ B) := by
  induction A with
  | nil => exact h2.tail
  | cons a A' ih =>
    rw [List.cons_append] at h1 ⊢
    rw [List.chain'_cons'] at h1 ⊢
    obtain ⟨hh, ht⟩ := h1
    refine ⟨?_, ih ht⟩
    intro y hy
    cases A' with
    | nil =>
      have ham : a ≤ m := hh m rfl
      have hmy : m ≤ y := (List.chain'_cons'.mp h2).1 y hy
      exact ham.trans hmy
    | cons b A'' => exact hh y hy

/-- Cursor values across the whole listening loop chain between the
initial cursor and the final cursor, under the C3 precondition. -/
theorem runLoop_chain :
    ∀ (script : List ScriptItem) (bot : BotState) (c : ℚ),
      ValidFrom bot c script →
      List.Chain' (· ≤ ·)
        (c :: cursorValues (runLoop bot c script).2.1 ++
          [(runLoop bot c script).1]) := by
  intro script
  induction script with
  | nil => intro bot c _; simp [runLoop, cursorValues]
  | cons item rest ih =>
    intro bot c hv
    cases item with
    | interrupt =>
      simp [runLoop, cursorValues, cursorValues_append, cursorValues_fireEvent,
        cursorValues_triggerEvs]
    | poll r =>
      obtain ⟨hr, hrest⟩ := hv
      have hit := pollIteration_chain bot c r (fun msgs hm => by
        subst hm; exact hr)
      unfold runLoop
      cases hb : (pollIteration bot c r).2.2 with
      | true => simpa [hb] using hit
      | false =>
        have hk := ih bot (pollIteration bot c r).1 hrest
        have hg := chain_glue (A := c :: cursorValues (pollIteration bot c r).2.1)
          (m := (pollIteration bot c r).1) hit hk
        simpa [hb, cursorValues_append] using hg

/-- Shutdown is fired exactly once on the interrupt path and never
otherwise; the interrupt path also exits the process with status 0. -/
theorem runLoop_shutdown :
    ∀ (script : List ScriptItem) (bot : BotState) (c : ℚ),
      shutdownCount (runLoop bot c script).2.1 =
        (if (runLoop bot c script).2.2 = RunEnd.interrupted then 1 else 0) ∧
      ((runLoop bot c script).2.2 = RunEnd.interrupted →
        Ev.sysExit 0 ∈ (runLoop bot c script).2.1) := by
  intro script
  induction script with
  | nil =>
    intro bot c
    exact ⟨by simp [runLoop, shutdownCount], by simp [runLoop]⟩
  | cons item rest ih =>
    intro bot c
    cases item with
    | interrupt =>
      constructor
      · simp [runLoop, shutdownCount, shutdownCount_append,
          shutdownCount_fireEvent, shutdownCount_triggerEvs, fireEvent]
      · intro _
        simp [runLoop]
    | poll r =>
      unfold runLoop
      cases hb : (pollIteration bot c r).2.2 with
      | true =>
        refine ⟨?_, ?_⟩
        · simp [hb, shutdownCount_pollIteration]
        · intro h
          simp [hb] at h
      | false =>
        refine ⟨?_, ?_⟩
        · simp [hb, shutdownCount_append, shutdownCount_pollIteration,
            (ih bot (pollIteration bot c r).1).1]
        · intro h
          simp only [hb] at h ⊢
          simp only [Bool.false_eq_true, if_false] at h ⊢
          rcases (ih bot (pollIteration bot c r).1).2 (by simpa using h) with hm
          simp [List.mem_append]
          exact Or.inr (by simpa using hm)

/-- With a valid sync response and a non-negative wall clock, the cursor
the sync block sets is non-negative. -/
theorem initialSync_nonneg (now : ℚ) (sync : SyncResp) (hnow : 0 ≤ now)
    (hsync : ∀ msgs, sync = SyncResp.resp 200 msgs → batchOK 0 msgs) :
    0 ≤ initialSync now sync := by
  cases sync with
  | exc e => exact hnow
  | resp status msgs =>
    by_cases hs : status = 200
    · subst hs
      cases hl : msgs.getLast? with
      | none => simpa [initialSync, hl] using hnow
      | some p =>
        have hmem : p ∈ msgs := by
          rcases List.mem_getLast?_eq_getLast (l := msgs) (x := p) hl with ⟨hne, hp⟩
          exact hp ▸ List.getLast_mem hne
        have hpos : 0 < p.timestamp := (hsync msgs rfl).2 p hmem
        have : (0 : ℚ) < 1 / 1000000 := by norm_num
        simp only [initialSync, hl]
        norm_num
        linarith
    · simp only [initialSync]
      have : (status == 200) = false := by simpa using hs
      simpa [this] using hnow

/-- C3: under the precondition that every fetch (the initial sync
included) returns payloads in ascending timestamp order with timestamps
strictly above the `after` argument, and with a non-negative wall clock,
the successive values assigned to `last_ts` — started at the
constructor's `0.0`, bracketed by the final cursor — form a
non-decreasing chain across the entire run; and a fully processed batch
with timestamps `t1 < t2 < t3` leaves the cursor at `t3`. -/
theorem C3_cursor_monotone :
    ∀ (bot : BotState) (now : ℚ) (sync : SyncResp) (script : List ScriptItem),
      0 ≤ now →
      (∀ msgs, sync = SyncResp.resp 200 msgs → batchOK 0 msgs) →
      ValidFrom bot (initialSync now sync) script →
      (List.Chain' (· ≤ ·)
        (0 :: cursorValues (botRun bot now sync script).2.1 ++
          [(botRun bot now sync script).1]) ∧
      (∀ (c : ℚ) (p1 p2 p3 : Payload),
        p1.timestamp < p2.timestamp → p2.timestamp < p3.timestamp →
        (processBatch bot c [p1, p2, p3]).2.2 = none →
        (processBatch bot c [p1, p2, p3]).1 = p3.timestamp)) := by
  intro bot now sync script hnow hsync hvalid
  constructor
  · have h0 : 0 ≤ initialSync now sync := initialSync_nonneg now sync hnow hsync
    have hloop := runLoop_chain script bot (initialSync now sync) hvalid
    have hchain := List.Chain'.cons h0 hloop
    have hevs : (botRun bot now sync script).2.1 =
        Ev.fetch 0 :: Ev.cursorSet (initialSync now sync) ::
          fireEvent bot.event_handlers "startup" [] ++
            (runLoop bot (initialSync now sync) script).2.1 := rfl
    rw [hevs]
    simpa [cursorValues, cursorValues_append, cursorValues_fireEvent,
      cursorValues_triggerEvs] using hchain
  · intro c p1 p2 p3 _ _ hnone
    have := processBatch_final bot [p1, p2, p3] c hnone
    simpa using this

/-- C4: in every run, a 403 poll response breaks out of the loop at once
without firing `shutdown` (the run ends `authFailed`, and the iteration's
trace stops at the critical log); a cooperative interrupt fires
`shutdown` exactly once and exits the process with status 0; and no run
that does not end by interrupt fires `shutdown` at all. -/
theorem C4_shutdown_paths :
    ∀ (bot : BotState) (now : ℚ) (sync : SyncResp) (script : List ScriptItem),
      ((botRun bot now sync script).2.2 = RunEnd.authFailed →
        shutdownCount (botRun bot now sync script).2.1 = 0) ∧
      ((botRun bot now sync script).2.2 = RunEnd.scriptEnded →
        shutdownCount (botRun bot now sync script).2.1 = 0) ∧
      ((botRun bot now sync script).2.2 = RunEnd.interrupted →
        shutdownCount (botRun bot now sync script).2.1 = 1 ∧
          Ev.sysExit 0 ∈ (botRun bot now sync script).2.1) ∧
      (∀ (c : ℚ) (rest : List ScriptItem),
        runLoop bot c (ScriptItem.poll PollResult.status403 :: rest) =
          (c, [Ev.fetch c, Ev.authLogged], RunEnd.authFailed)) ∧
      (∀ (c : ℚ) (rest : List ScriptItem),
        runLoop bot c (ScriptItem.interrupt :: rest) =
          (c, fireEvent bot.event_handlers "shutdown" [] ++ [Ev.sysExit 0],
            RunEnd.interrupted)) := by
  intro bot now sync script
  have hend : (botRun bot now sync script).2.2 =
      (runLoop bot (initialSync now sync) script).2.2 := rfl
  have hl := runLoop_shutdown script bot (initialSync now sync)
  have hcount : shutdownCount (botRun bot now sync script).2.1 =
      shutdownCount (runLoop bot (initialSync now sync) script).2.1 := by
    have hevs : (botRun bot now sync script).2.1 =
        Ev.fetch 0 :: Ev.cursorSet (initialSync now sync) ::
          fireEvent bot.event_handlers "startup" [] ++
            (runLoop bot (initialSync now sync) script).2.1 := rfl
    rw [hevs]
    simp [shutdownCount, shutdownCount_append, shutdownCount_fireEvent,
      shutdownCount_triggerEvs]
  refine ⟨?_, ?_, ?_, ?_, ?_⟩
  · intro h
    rw [hend] at h
    rw [hcount, hl.1, h]
    simp
  · intro h
    rw [hend] at h
    rw [hcount, hl.1, h]
    simp
  · intro h
    rw [hend] at h
    constructor
    · rw [hcount, hl.1, h]
      simp
    · have hm := hl.2 h
      have hevs : (botRun bot now sync script).2.1 =
          Ev.fetch 0 :: Ev.cursorSet (initialSync now sync) ::
            fireEvent bot.event_handlers "startup" [] ++
              (runLoop bot (initialSync now sync) script).2.1 := rfl
      rw [hevs]
      exact List.mem_append_right _ hm
  · intro c rest
    rfl
  · intro c rest
    rfl

/-- C3 witness: a run over one valid single-payload batch after a failed
sync (cursor from wall clock 0) yields a non-decreasing cursor chain. -/
theorem C3_cursor_monotone_witness :
    List.Chain' (· ≤ ·)
      (0 :: cursorValues (botRun cmdBot 0 (SyncResp.exc "down")
          [ScriptItem.poll (PollResult.ok [⟨S "/x", 1⟩])]).2.1 ++
        [(botRun cmdBot 0 (SyncResp.exc "down")
          [ScriptItem.poll (PollResult.ok [⟨S "/x", 1⟩])]).1]) :=
  (C3_cursor_monotone cmdBot 0 (SyncResp.exc "down")
    [ScriptItem.poll (PollResult.ok [⟨S "/x", 1⟩])]
    (by norm_num)
    (fun msgs h => nomatch h)
    (by
      simp only [ValidFrom]
      exact ⟨⟨by decide, by decide⟩, trivial⟩)).1

/-- C4 witness: a run that hits a 403 on its first poll ends in
`authFailed` and its trace contains no `shutdown` firing. -/
theorem C4_shutdown_paths_witness :
    shutdownCount (botRun cmdBot 0 (SyncResp.exc "down")
      [ScriptItem.poll PollResult.status403]).2.1 = 0 :=
  (C4_shutdown_paths cmdBot 0 (SyncResp.exc "down")
    [ScriptItem.poll PollResult.status403]).1 rfl

/-- C7: the run starts with exactly one fetch at `after_ts = 0`; the
cursor it then sets is the last returned timestamp plus the strictly
positive epsilon `0.000001` on a non-empty 200 body, and the wall clock
`now` on an empty 200 body, a non-200 status, or an exception; in every
case the trace then continues with the `startup` firing followed by the
listening loop. -/
theorem C7_initial_sync :
    ∀ (bot : BotState) (now : ℚ) (sync : SyncResp) (script : List ScriptItem),
      (botRun bot now sync script).2.1 =
        Ev.fetch 0 :: Ev.cursorSet (initialSync now sync) ::
          fireEvent bot.event_handlers "startup" [] ++
            (runLoop bot (initialSync now sync) script).2.1 ∧
      (∀ msgs p, msgs.getLast? = some p →
        initialSync now (SyncResp.resp 200 msgs) = p.timestamp + 1 / 1000000) ∧
      ((0 : ℚ) < 1 / 1000000) ∧
      initialSync now (SyncResp.resp 200 []) = now ∧
      (∀ status msgs, status ≠ 200 →
        initialSync now (SyncResp.resp status msgs) = now) ∧
      (∀ e, initialSync now (SyncResp.exc e) = now) := by
  intro bot now sync script
  refine ⟨rfl, ?_, by norm_num, rfl, ?_, fun e => rfl⟩
  · intro msgs p hl
    simp [initialSync, hl]
  · intro status msgs hs
    have : (status == 200) = false := by simpa using hs
    simp [initialSync, this]

/-- C7 witness: a 500 sync response sets the cursor to the wall clock. -/
theorem C7_initial_sync_witness :
    initialSync 3 (SyncResp.resp 500 [⟨S "x", 7⟩]) = 3 :=
  (C7_initial_sync cmdBot 3 (SyncResp.resp 500 [⟨S "x", 7⟩]) []).2.2.2.2.1
    500 [⟨S "x", 7⟩] (by decide)

/-! ## C1: handler failure isolation -/

/-- C1 counterexample: in a batch of two messages where the first hits a
raising CATCH-ALL handler, the loop does not fire `error` with the
triggering message (it fires it with the error alone), never advances
the cursor to the second message and never dispatches it — so a raising
catch-all handler does stop subsequent messages of the batch, contrary
to the claim. -/
theorem C1_counterexample :
    Ev.fired "error" [EvArg.err "boom", EvArg.msg (mkMessage ⟨S "a", 1⟩)] ∉
      (pollIteration cbBot 0 (PollResult.ok [⟨S "a", 1⟩, ⟨S "b", 2⟩])).2.1 ∧
    Ev.cursorSet 2 ∉
      (pollIteration cbBot 0 (PollResult.ok [⟨S "a", 1⟩, ⟨S "b", 2⟩])).2.1 ∧
    Ev.catchAllInvoked 0 (mkMessage ⟨S "b", 2⟩) ∉
      (pollIteration cbBot 0 (PollResult.ok [⟨S "a", 1⟩, ⟨S "b", 2⟩])).2.1 ∧
    Ev.fired "error" [EvArg.err "boom"] ∈
      (pollIteration cbBot 0 (PollResult.ok [⟨S "a", 1⟩, ⟨S "b", 2⟩])).2.1 := by
  decide

/-- Unfolding equation of `processBatch` on a non-empty batch. -/
theorem processBatch_cons (bot : BotState) (c : ℚ) (p : Payload)
    (rest : List Payload) :
    processBatch bot c (p :: rest) =
      (match (dispatchMsg bot (mkMessage p)).2 with
       | some e =>
         (p.timestamp,
           Ev.cursorSet p.timestamp :: (dispatchMsg bot (mkMessage p)).1,
           some e)
       | none =>
         ((processBatch bot p.timestamp rest).1,
           Ev.cursorSet p.timestamp :: (dispatchMsg bot (mkMessage p)).1 ++
             (processBatch bot p.timestamp rest).2.1,
           (processBatch bot p.timestamp rest).2.2)) := rfl

/-- Unfolding equation of `pollIteration` on a 200 response. -/
theorem pollIteration_ok (bot : BotState) (c : ℚ) (msgs : List Payload) :
    pollIteration bot c (PollResult.ok msgs) =
      (match (processBatch bot c msgs).2.2 with
       | none =>
         ((processBatch bot c msgs).1,
           Ev.fetch c :: (processBatch bot c msgs).2.1, false)
       | some e =>
         ((processBatch bot c msgs).1,
           Ev.fetch c :: (processBatch bot c msgs).2.1 ++
             Ev.loopErrLogged e ::
               fireEvent bot.event_handlers "error" [EvArg.err e] ++
             [Ev.slept 1],
           false)) := rfl

/-- C1 (amended): a COMMAND handler that raises on message `m` has its
exception caught inside the per-message body: the `error` lifecycle
handler is fired with `(error, m)`, no exception propagates, and the rest
of the batch is processed exactly as it would be on its own.  A raising
CATCH-ALL handler instead propagates out of the `for`-loop over the
batch: the remaining messages are skipped, and the outer handler fires
`error` with the error alone and continues the polling loop (no
break). -/
theorem C1_handler_error_isolation :
    ∀ (bot : BotState) (c : ℚ) (p : Payload) (rest : List Payload)
      (f : HBeh) (w : Bool) (e : Err),
      (lookupCmd bot.command_handlers (mkMessage p).command = some (f, w) →
        f (mkMessage p) = Except.error e →
        (dispatchMsg bot (mkMessage p)).2 = none ∧
        Ev.fired "error" [EvArg.err e, EvArg.msg (mkMessage p)] ∈
          (dispatchMsg bot (mkMessage p)).1 ∧
        processBatch bot c (p :: rest) =
          ((processBatch bot p.timestamp rest).1,
            Ev.cursorSet p.timestamp :: (dispatchMsg bot (mkMessage p)).1 ++
              (processBatch bot p.timestamp rest).2.1,
            (processBatch bot p.timestamp rest).2.2)) ∧
      ((dispatchMsg bot (mkMessage p)).2 = some e →
        processBatch bot c (p :: rest) =
          (p.timestamp,
            Ev.cursorSet p.timestamp :: (dispatchMsg bot (mkMessage p)).1,
            some e) ∧
        pollIteration bot c (PollResult.ok (p :: rest)) =
          (p.timestamp,
            Ev.fetch c :: (Ev.cursorSet p.timestamp ::
                (dispatchMsg bot (mkMessage p)).1) ++
              (Ev.loopErrLogged e ::
                fireEvent bot.event_handlers "error" [EvArg.err e]) ++
              [Ev.slept 1],
            false)) := by
  intro bot c p rest f w e
  constructor
  · intro hl hf
    have hd1 : dispatchMsg bot (mkMessage p) =
        (Ev.cmdInvoked ((mkMessage p).command.getD []) (mkMessage p)
            (if w then some (mkMessage p).args else none) ::
          Ev.cmdErrLogged ((mkMessage p).command.getD []) e ::
          fireEvent bot.event_handlers "error"
            [EvArg.err e, EvArg.msg (mkMessage p)],
          none) := by
      unfold dispatchMsg
      rw [hl]
      simp [hf]
    refine ⟨by rw [hd1], ?_, ?_⟩
    · rw [hd1]
      simp [fireEvent]
    · rw [processBatch_cons, hd1]
  · intro hd
    have h1 : processBatch bot c (p :: rest) =
        (p.timestamp,
          Ev.cursorSet p.timestamp :: (dispatchMsg bot (mkMessage p)).1,
          some e) := by
      rw [processBatch_cons, hd]
    refine ⟨h1, ?_⟩
    rw [pollIteration_ok, h1]

/-- C1 witness: a raising command handler (trigger `"/cmd"`) on the
message `"/cmd hi"` leads to the `error` firing with the message. -/
theorem C1_handler_error_isolation_witness :
    Ev.fired "error" [EvArg.err "boom", EvArg.msg (mkMessage ⟨S "/cmd hi", 5⟩)] ∈
      (dispatchMsg cmdBot (mkMessage ⟨S "/cmd hi", 5⟩)).1 :=
  ((C1_handler_error_isolation cmdBot 0 ⟨S "/cmd hi", 5⟩ [] raiseBeh true
    "boom").1 rfl rfl).2.1

/-! ## C5: routing of one message -/

/-- C5 counterexample: with two registered catch-all handlers of which
the first raises, a non-command message invokes the first catch-all but
never the second — the handlers after a raising one are skipped, contrary
to the claim that every registered catch-all is invoked. -/
theorem C5_counterexample :
    Ev.catchAllInvoked 1 (mkMessage ⟨S "hello", 1⟩) ∉
      (dispatchMsg cbBot (mkMessage ⟨S "hello", 1⟩)).1 ∧
    Ev.catchAllInvoked 0 (mkMessage ⟨S "hello", 1⟩) ∈
      (dispatchMsg cbBot (mkMessage ⟨S "hello", 1⟩)).1 := by
  decide

/-- With every catch-all succeeding on `m`, the loop invokes each one, in
position order. -/
theorem runCatchAlls_all_ok :
    ∀ (hs : List HBeh) (idx : Nat) (m : Msg),
      (∀ h ∈ hs, h m = Except.ok ()) →
      runCatchAlls hs idx m =
        ((List.range' idx hs.length).map (fun j => Ev.catchAllInvoked j m),
          none) := by
  intro hs
  induction hs with
  | nil => intro idx m _; rfl
  | cons hd tl ih =>
    intro idx m hok
    have hhd : hd m = Except.ok () := hok hd (List.mem_cons_self _ _)
    have htl := ih (idx + 1) m fun h hh => hok h (List.mem_cons_of_mem _ hh)
    unfold runCatchAlls
    rw [hhd, htl]
    simp [List.range'_succ]

/-- With a first raising catch-all at position `pre.length` after
successes, the loop invokes the handlers up to and including the raiser
and propagates its exception. -/
theorem runCatchAlls_first_raise :
    ∀ (pre : List HBeh) (idx : Nat) (m : Msg) (h : HBeh) (post : List HBeh)
      (e : Err),
      (∀ g ∈ pre, g m = Except.ok ()) → h m = Except.error e →
      runCatchAlls (pre ++ h :: post) idx m =
        ((List.range' idx (pre.length + 1)).map
            (fun j => Ev.catchAllInvoked j m),
          some e) := by
  intro pre
  induction pre with
  | nil =>
    intro idx m h post e _ hraise
    simp only [List.nil_append]
    unfold runCatchAlls
    simp [hraise, List.range'_succ]
  | cons g pre' ih =>
    intro idx m h post e hok hraise
    have hg : g m = Except.ok () := hok g (List.mem_cons_self _ _)
    have hih := ih (idx + 1) m h post e
      (fun g' hg' => hok g' (List.mem_cons_of_mem _ hg')) hraise
    rw [List.cons_append]
    unfold runCatchAlls
    rw [hg, hih]
    simp [List.range'_succ]

/-- C5 (amended): a message whose parsed command matches a registered
trigger has that command handler invoked exactly once, with `(message)`
or `(message, message.args)` per its declared arity, and no catch-all is
invoked for it, even when the handler raised; a message with no matching
trigger has the catch-all handlers invoked with `(message)` in
registration order up to and including the first one that raises — all of
them when none raises. -/
theorem C5_routing :
    ∀ (bot : BotState) (m : Msg),
      (∀ f w, lookupCmd bot.command_handlers m.command = some (f, w) →
        ((dispatchMsg bot m).1.count
          (Ev.cmdInvoked (m.command.getD []) m
            (if w then some m.args else none)) = 1) ∧
        (∀ i m', Ev.catchAllInvoked i m' ∉ (dispatchMsg bot m).1)) ∧
      (lookupCmd bot.command_handlers m.command = none →
        ((∀ h ∈ bot.message_handlers, h m = Except.ok ()) →
          (dispatchMsg bot m).1 =
            (List.range bot.message_handlers.length).map
              (fun j => Ev.catchAllInvoked j m)) ∧
        (∀ pre h post e, bot.message_handlers = pre ++ h :: post →
          (∀ g ∈ pre, g m = Except.ok ()) → h m = Except.error e →
          (dispatchMsg bot m).1 =
            (List.range (pre.length + 1)).map
              (fun j => Ev.catchAllInvoked j m))) := by
  intro bot m
  constructor
  · intro f w hl
    constructor
    · unfold dispatchMsg
      rw [hl]
      dsimp only
      cases hf : f m with
      | ok u => simp
      | error e =>
        have hz : (fireEvent bot.event_handlers "error"
            [EvArg.err e, EvArg.msg m]).count
            (Ev.cmdInvoked (m.command.getD []) m
              (if w then some m.args else none)) = 0 := by
          rw [List.count_eq_zero]
          intro hmem
          rcases fireEvent_mem _ _ _ _ hmem with hfe | ⟨ee, hfe⟩ <;> cases hfe
        simp [List.count_cons, hz]
    · intro i m' hmem
      unfold dispatchMsg at hmem
      rw [hl] at hmem
      dsimp only at hmem
      cases hf : f m with
      | ok u =>
        rw [hf] at hmem
        simp at hmem
      | error e =>
        rw [hf] at hmem
        simp only [List.mem_cons] at hmem
        rcases hmem with h1 | h2 | h3
        · cases h1
        · cases h2
        · rcases fireEvent_mem _ _ _ _ h3 with hfe | ⟨ee, hfe⟩ <;> cases hfe
  · intro hl
    constructor
    · intro hok
      unfold dispatchMsg
      rw [hl]
      dsimp only
      rw [runCatchAlls_all_ok bot.message_handlers 0 m hok,
        List.range_eq_range']
    · intro pre h post e hsplit hok hraise
      unfold dispatchMsg
      rw [hl]
      dsimp only
      rw [hsplit, runCatchAlls_first_raise pre 0 m h post e hok hraise,
        List.range_eq_range']

/-- C5 witness: the raising command handler for `"/cmd"` is invoked
exactly once, with the message and its args, on `"/cmd hi"`. -/
theorem C5_routing_witness :
    (dispatchMsg cmdBot (mkMessage ⟨S "/cmd hi", 5⟩)).1.count
      (Ev.cmdInvoked ((mkMessage ⟨S "/cmd hi", 5⟩).command.getD [])
        (mkMessage ⟨S "/cmd hi", 5⟩)
        (some (mkMessage ⟨S "/cmd hi", 5⟩).args)) = 1 :=
  ((C5_routing cmdBot (mkMessage ⟨S "/cmd hi", 5⟩)).1 raiseBeh true rfl).1

/-! ## C10: uppercase command triggers are unreachable -/

/-- Lowercasing removes every ASCII uppercase code point. -/
theorem pyLower_no_upper (s : List Nat) :
    ∀ c ∈ pyLower s, isAsciiUpper c = false := by
  intro c hc
  rcases List.mem_map.mp hc with ⟨d, _, rfl⟩
  unfold pyCharLower isAsciiUpper
  by_cases h : 65 ≤ d ∧ d ≤ 90 <;> simp [h] <;> omega

/-- C10: a command trigger containing an ASCII uppercase character never
equals the parsed (lowercased) `command` of any received message, so the
handler registered under it is never invoked: no `cmdInvoked` event for
that trigger can appear in the dispatch of any message. -/
theorem C10_uppercase_trigger_dead :
    ∀ (trigger : List Nat), (∃ u ∈ trigger, isAsciiUpper u = true) →
      ∀ (p : Payload) (bot : BotState) (m : Msg)
        (a : Option (List (List Nat))),
        (mkMessage p).command ≠ some trigger ∧
        Ev.cmdInvoked trigger m a ∉ (dispatchMsg bot (mkMessage p)).1 := by
  intro trigger hex p bot m a
  obtain ⟨u, hu, hup⟩ := hex
  have hcmd := mkMessage_command p
  have hne : pyLower ((pyStrip p.text).takeWhile (fun c => c != 32)) ≠
      trigger := by
    intro h
    have hfalse := pyLower_no_upper
      ((pyStrip p.text).takeWhile (fun c => c != 32)) u (h ▸ hu)
    rw [hup] at hfalse
    cases hfalse
  constructor
  · rw [hcmd]
    intro h
    exact hne (Option.some.inj h)
  · intro hmem
    rcases dispatchMsg_mem bot (mkMessage p) _ hmem with
      ⟨a', ha⟩ | ⟨ee, h2⟩ | ⟨ee, h2⟩ | ⟨ee, h2⟩ | ⟨j, h2⟩
    · have htr : trigger = (mkMessage p).command.getD [] := by
        injection ha with h1 _
      rw [hcmd] at htr
      exact hne htr.symm
    · cases h2
    · cases h2
    · cases h2
    · cases h2

/-- C10 witness: the trigger `"/CMD"` can never be the parsed command of
the message with raw text `"/CMD"`. -/
theorem C10_uppercase_trigger_dead_witness :
    (mkMessage ⟨S "/CMD", 0⟩).command ≠ some (S "/CMD") :=
  (C10_uppercase_trigger_dead (S "/CMD") ⟨67, by decide, by decide⟩
    ⟨S "/CMD", 0⟩ cbBot (mkMessage ⟨S "/CMD", 0⟩) none).1
